import Mathlib

/-!
Verification of the ShopWell price-comparison module.

The repository contains two evolution stages of the same module:
`src/utils/priceHelpers` for the simple one-price-per-shop model
(embedded below in namespace `Legacy`) and the brand-based model
(embedded in namespace `Brand`).  Prices (JavaScript `number`) are
modelled as `ℚ`; record collections as `List`.

JavaScript idioms are embedded as follows:
* `Array.prototype.find(p)`   becomes `List.find? p` (first match or absent);
* `Array.prototype.filter(p)` becomes `List.filter p`;
* `arr.reduce((min, x) => x.price < min.price ? x : min)` (no seed, on a
  non-empty array) becomes `reduceMinPrice` below: a left fold over the
  tail seeded with the head, keeping the earlier element on ties;
* `Array.prototype.sort(cmp)` is modelled with `List.insertionSort r`
  where `r a b` is the proposition `cmp a b ≤ 0`; ECMAScript guarantees
  the result is a permutation of the input that is sorted with respect
  to the comparator, which `insertionSort` satisfies;
* `[...new Set(xs)]` becomes `jsSetDedup` (keep first occurrences, in order);
* `shop?.name || 'Unknown'` becomes `jsNameOrUnknown` (the `||` fallback
  also triggers on an empty-string name, which is falsy in JavaScript).

Fields of the TypeScript interfaces that the module never reads
(currency, timestamps, category tags, flags, notes, geolocation) are
omitted from the structures.
-/

namespace ShopWell

/-- Shop catalog entry (`Shop` in src/types): only `id` and `name` are read
by the price-comparison module. -/
structure Shop where
  id : String
  name : String
  deriving Repr, DecidableEq

/-- Product catalog entry (`Product` in src/types): only `id` and `name`
are read by the module. -/
structure Product where
  id : String
  name : String
  deriving Repr, DecidableEq

/-- Simple price record (`ShopProduct` in the earlier src/types): one price
for a (product, shop) pair. -/
structure ShopProduct where
  id : String
  productId : String
  shopId : String
  price : ℚ
  deriving Repr, DecidableEq

/-- Brand price record (`ShopProductBrand` in the later src/types): one
price for a (product, shop, brand) triple. -/
structure ShopProductBrand where
  id : String
  productId : String
  shopId : String
  brand : String
  price : ℚ
  deriving Repr, DecidableEq

/-- `PriceComparison` from src/types, as returned by both variants of
`getPriceComparison`. -/
structure PriceComparison where
  currentPrice : ℚ
  cheapestPrice : ℚ
  cheapestShopId : String
  cheapestShopName : String
  savings : ℚ
  savingsPercent : ℚ
  isCheapest : Bool
  deriving Repr, DecidableEq

/-- JavaScript `arr.reduce((min, x) => x.price < min.price ? x : min)` on the
non-empty array `first :: rest`: the first element with minimal `price` wins. -/
def reduceMinPrice {α : Type} (price : α → ℚ) (first : α) (rest : List α) : α :=
  rest.foldl (fun m x => if price x < price m then x else m) first

/-- JavaScript `shop?.name || 'Unknown'`: absent shop, and also the falsy
empty-string name, fall back to `"Unknown"`. -/
def jsNameOrUnknown (shop : Option Shop) : String :=
  match shop with
  | none => "Unknown"
  | some s => if s.name == "" then "Unknown" else s.name

/-- Accumulator pass of `jsSetDedup`: drop elements already seen. -/
def jsSetDedupAux (seen : List String) : List String → List String
  | [] => []
  | x :: xs =>
    if seen.contains x then jsSetDedupAux seen xs
    else x :: jsSetDedupAux (x :: seen) xs

/-- JavaScript `[...new Set(xs)]`: distinct elements in first-occurrence order. -/
def jsSetDedup (xs : List String) : List String :=
  jsSetDedupAux [] xs

namespace Legacy

/-- `getPriceComparison` from the simple-variant priceHelpers
(src/unnamed/part_000, lines 18-61), translated clause by clause. -/
def getPriceComparison (productId shopId : String)
    (shopProducts : List ShopProduct) (shops : List Shop) :
    Option PriceComparison :=
  match shopProducts.find?
      (fun sp => sp.productId == productId && sp.shopId == shopId) with
  | none => none
  | some currentShopProduct =>
    match shopProducts.filter (fun sp => sp.productId == productId) with
    | [] => none
    | hd :: tl =>
      let cheapest := reduceMinPrice ShopProduct.price hd tl
      let cheapestShop := shops.find? (fun s => s.id == cheapest.shopId)
      let savings := currentShopProduct.price - cheapest.price
      let savingsPercent :=
        if currentShopProduct.price > 0 then
          savings / currentShopProduct.price * 100
        else 0
      some {
        currentPrice := currentShopProduct.price
        cheapestPrice := cheapest.price
        cheapestShopId := cheapest.shopId
        cheapestShopName := jsNameOrUnknown cheapestShop
        savings := savings
        savingsPercent := savingsPercent
        isCheapest := currentShopProduct.shopId == cheapest.shopId
      }

/-- `getCheapestShop` from the simple-variant priceHelpers
(src/unnamed/part_000, lines 66-88). -/
def getCheapestShop (productId : String)
    (shopProducts : List ShopProduct) (shops : List Shop) :
    Option (Shop × ℚ) :=
  match shopProducts.filter (fun sp => sp.productId == productId) with
  | [] => none
  | hd :: tl =>
    let cheapest := reduceMinPrice ShopProduct.price hd tl
    match shops.find? (fun s => s.id == cheapest.shopId) with
    | none => none
    | some shop => some (shop, cheapest.price)

/-- The spec's `cheapestAtShop` (§4.1) for the simple variant: the
minimum-price record for the product restricted to one shop.  The simple
variant has no such named helper in the source (its comparison uses `find`
for the current record); this is the brand variant's
`getCheapestBrandAtShop` transported to `ShopProduct` records and serves as
the claim-level notion of "the cheapest record for that product at that
shop". -/
def cheapestAtShop (productId shopId : String)
    (shopProducts : List ShopProduct) : Option ShopProduct :=
  match shopProducts.filter
      (fun sp => sp.productId == productId && sp.shopId == shopId) with
  | [] => none
  | hd :: tl => some (reduceMinPrice ShopProduct.price hd tl)

/-- The record the simple variant selects as cheapest-anywhere for the
product: the first-minimum of the matching records, as computed by the
reduce shared by `getPriceComparison` and `getCheapestShop` (before any
shop resolution). -/
def cheapestRecordAnywhere (productId : String)
    (shopProducts : List ShopProduct) : Option ShopProduct :=
  match shopProducts.filter (fun sp => sp.productId == productId) with
  | [] => none
  | hd :: tl => some (reduceMinPrice ShopProduct.price hd tl)

/-- Item of the shopping-list total calculation: the source takes
`Array<\x7bproductId?: string; quantity: number\x7d>`. -/
structure ListItem where
  productId : Option String
  quantity : ℚ
  deriving Repr, DecidableEq

/-- Result triple of `calculateListTotalAtShop`. -/
structure ListTotal where
  total : ℚ
  itemsWithPrices : Nat
  itemsWithoutPrices : Nat
  deriving Repr, DecidableEq

/-- Body of the `items.forEach` loop of `calculateListTotalAtShop`.  The
source guard `if (item.productId)` is JavaScript truthiness: it rejects
both a missing productId and the falsy empty string. -/
def listTotalStep (shopId : String) (shopProducts : List ShopProduct)
    (acc : ListTotal) (item : ListItem) : ListTotal :=
  match item.productId with
  | some productId =>
    if productId == "" then
      { acc with itemsWithoutPrices := acc.itemsWithoutPrices + 1 }
    else
      match shopProducts.find?
          (fun sp => sp.productId == productId && sp.shopId == shopId) with
      | some shopProduct =>
        { acc with
          total := acc.total + shopProduct.price * item.quantity
          itemsWithPrices := acc.itemsWithPrices + 1 }
      | none =>
        { acc with itemsWithoutPrices := acc.itemsWithoutPrices + 1 }
  | none => { acc with itemsWithoutPrices := acc.itemsWithoutPrices + 1 }

/-- `calculateListTotalAtShop` from the simple-variant priceHelpers
(src/unnamed/part_000, lines 111-137): the `forEach` over three mutable
accumulators becomes a left fold of `listTotalStep`. -/
def calculateListTotalAtShop (items : List ListItem) (shopId : String)
    (shopProducts : List ShopProduct) : ListTotal :=
  items.foldl (listTotalStep shopId shopProducts)
    { total := 0, itemsWithPrices := 0, itemsWithoutPrices := 0 }

/-- An item "has a priced record at the shop": its productId is present (and
JavaScript-truthy, i.e. non-empty) and some record matches it at the shop. -/
def itemHasPricedRecord (shopId : String) (shopProducts : List ShopProduct)
    (item : ListItem) : Bool :=
  match item.productId with
  | some productId =>
    productId != "" &&
      (shopProducts.find?
        (fun sp => sp.productId == productId && sp.shopId == shopId)).isSome
  | none => false

/-- The amount an item contributes to the list total at the shop: matched
record price times quantity, `0` for unpriced items. -/
def itemContribution (shopId : String) (shopProducts : List ShopProduct)
    (item : ListItem) : ℚ :=
  match item.productId with
  | some productId =>
    if productId == "" then 0
    else
      match shopProducts.find?
          (fun sp => sp.productId == productId && sp.shopId == shopId) with
      | some sp => sp.price * item.quantity
      | none => 0
  | none => 0

/-- Entry of the simple-variant `getCheaperAlternatives` result. -/
structure CheaperAlternative where
  product : Product
  currentPrice : ℚ
  cheapestPrice : ℚ
  cheapestShop : Shop
  savings : ℚ
  deriving Repr, DecidableEq

/-- Comparator order of `alternatives.sort((a, b) => b.savings - a.savings)`:
`a` may precede `b` when the comparator is ≤ 0. -/
def altLe (a b : CheaperAlternative) : Prop :=
  b.savings - a.savings ≤ 0

instance : DecidableRel altLe := fun a b =>
  inferInstanceAs (Decidable (b.savings - a.savings ≤ 0))

/-- `getCheaperAlternatives` from the simple-variant priceHelpers
(src/unnamed/part_000, lines 143-185): one candidate per record carried at
the shop, kept when the comparison is not-cheapest with positive savings
and both referenced entities resolve. -/
def getCheaperAlternatives (shopId : String) (shopProducts : List ShopProduct)
    (shops : List Shop) (products : List Product) : List CheaperAlternative :=
  let productsAtShop := shopProducts.filter (fun sp => sp.shopId == shopId)
  (productsAtShop.filterMap (fun sp =>
    match getPriceComparison sp.productId shopId shopProducts shops with
    | none => none
    | some comparison =>
      if !comparison.isCheapest && comparison.savings > 0 then
        match products.find? (fun p => p.id == sp.productId),
              shops.find? (fun s => s.id == comparison.cheapestShopId) with
        | some product, some cheapestShop =>
          some {
            product := product
            currentPrice := comparison.currentPrice
            cheapestPrice := comparison.cheapestPrice
            cheapestShop := cheapestShop
            savings := comparison.savings }
        | _, _ => none
      else none)).insertionSort altLe

end Legacy

namespace Brand

/-- `getCheapestBrandAtShop` from the brand-variant priceHelpers
(src/unnamed/part_001, lines 18-34). -/
def getCheapestBrandAtShop (productId shopId : String)
    (shopProductBrands : List ShopProductBrand) : Option ShopProductBrand :=
  match shopProductBrands.filter
      (fun spb => spb.productId == productId && spb.shopId == shopId) with
  | [] => none
  | hd :: tl => some (reduceMinPrice ShopProductBrand.price hd tl)

/-- `getPriceComparison` from the brand-variant priceHelpers
(src/unnamed/part_001, lines 40-81). -/
def getPriceComparison (productId shopId : String)
    (shopProductBrands : List ShopProductBrand) (shops : List Shop) :
    Option PriceComparison :=
  match getCheapestBrandAtShop productId shopId shopProductBrands with
  | none => none
  | some cheapestAtThisShop =>
    match shopProductBrands.filter (fun spb => spb.productId == productId) with
    | [] => none
    | hd :: tl =>
      let cheapestAnywhere := reduceMinPrice ShopProductBrand.price hd tl
      let cheapestShop := shops.find? (fun s => s.id == cheapestAnywhere.shopId)
      let savings := cheapestAtThisShop.price - cheapestAnywhere.price
      let savingsPercent :=
        if cheapestAtThisShop.price > 0 then
          savings / cheapestAtThisShop.price * 100
        else 0
      some {
        currentPrice := cheapestAtThisShop.price
        cheapestPrice := cheapestAnywhere.price
        cheapestShopId := cheapestAnywhere.shopId
        cheapestShopName := jsNameOrUnknown cheapestShop
        savings := savings
        savingsPercent := savingsPercent
        isCheapest := cheapestAtThisShop.id == cheapestAnywhere.id
      }

/-- The record the brand variant selects as cheapest-anywhere for the
product: the first-minimum of the matching records, as computed by the
reduce shared by `getPriceComparison` and `getCheapestOption` (before any
shop resolution). -/
def cheapestRecordAnywhere (productId : String)
    (shopProductBrands : List ShopProductBrand) : Option ShopProductBrand :=
  match shopProductBrands.filter (fun spb => spb.productId == productId) with
  | [] => none
  | hd :: tl => some (reduceMinPrice ShopProductBrand.price hd tl)

/-- Result of `getCheapestOption`. -/
structure CheapestOption where
  shop : Shop
  brand : ShopProductBrand
  price : ℚ
  deriving Repr, DecidableEq

/-- `getCheapestOption` from the brand-variant priceHelpers
(src/unnamed/part_001, lines 86-108). -/
def getCheapestOption (productId : String)
    (shopProductBrands : List ShopProductBrand) (shops : List Shop) :
    Option CheapestOption :=
  match shopProductBrands.filter (fun spb => spb.productId == productId) with
  | [] => none
  | hd :: tl =>
    let cheapest := reduceMinPrice ShopProductBrand.price hd tl
    match shops.find? (fun s => s.id == cheapest.shopId) with
    | none => none
    | some shop => some { shop := shop, brand := cheapest, price := cheapest.price }

/-- One group of the brand-variant `getAllPricesForProduct` result. -/
structure ShopPriceGroup where
  shop : Shop
  brands : List ShopProductBrand
  cheapestPrice : ℚ
  deriving Repr, DecidableEq

/-- Comparator order of `.sort((a, b) => a.price - b.price)` on brand records. -/
def brandLe (a b : ShopProductBrand) : Prop :=
  a.price - b.price ≤ 0

instance : DecidableRel brandLe := fun a b =>
  inferInstanceAs (Decidable (a.price - b.price ≤ 0))

/-- Comparator order of `.sort((a, b) => a.cheapestPrice - b.cheapestPrice)`
on shop groups. -/
def groupLe (a b : ShopPriceGroup) : Prop :=
  a.cheapestPrice - b.cheapestPrice ≤ 0

instance : DecidableRel groupLe := fun a b =>
  inferInstanceAs (Decidable (a.cheapestPrice - b.cheapestPrice ≤ 0))

/-- `getAllPricesForProduct` from the brand-variant priceHelpers
(src/unnamed/part_001, lines 113-136).  The source computes
`brands.length > 0 ? brands[0].price : Infinity`; the `Infinity` default is
unreachable because every grouped shopId stems from a matching record (the
nil branch below returns `0` as a placeholder; `allPrices_brands_ne_nil`
proves the branch is never taken on produced groups). -/
def getAllPricesForProduct (productId : String)
    (shopProductBrands : List ShopProductBrand) (shops : List Shop) :
    List ShopPriceGroup :=
  let shopIds := jsSetDedup
    ((shopProductBrands.filter (fun spb => spb.productId == productId)).map
      (fun spb => spb.shopId))
  (shopIds.filterMap (fun shopId =>
    match shops.find? (fun s => s.id == shopId) with
    | none => none
    | some shop =>
      let brands := (shopProductBrands.filter
          (fun spb => spb.productId == productId && spb.shopId == shopId)).insertionSort
          brandLe
      let cheapestPrice :=
        match brands with
        | [] => (0 : ℚ)
        | b :: _ => b.price
      some { shop := shop, brands := brands, cheapestPrice := cheapestPrice })).insertionSort
    groupLe

/-- Entry of the brand-variant `getCheaperAlternatives` result. -/
structure CheaperAlternative where
  product : Product
  currentBrand : ShopProductBrand
  currentPrice : ℚ
  cheapestPrice : ℚ
  cheapestShop : Shop
  cheapestBrand : ShopProductBrand
  savings : ℚ
  deriving Repr, DecidableEq

/-- Comparator order of `alternatives.sort((a, b) => b.savings - a.savings)`. -/
def altLe (a b : CheaperAlternative) : Prop :=
  b.savings - a.savings ≤ 0

instance : DecidableRel altLe := fun a b =>
  inferInstanceAs (Decidable (b.savings - a.savings ≤ 0))

/-- `getCheaperAlternatives` from the brand-variant priceHelpers
(src/unnamed/part_001, lines 142-198): one candidate per distinct product
carried at the shop. -/
def getCheaperAlternatives (shopId : String)
    (shopProductBrands : List ShopProductBrand) (shops : List Shop)
    (products : List Product) : List CheaperAlternative :=
  let productIds := jsSetDedup
    ((shopProductBrands.filter (fun spb => spb.shopId == shopId)).map
      (fun spb => spb.productId))
  (productIds.filterMap (fun productId =>
    match getCheapestBrandAtShop productId shopId shopProductBrands,
          getCheapestOption productId shopProductBrands shops with
    | some cheapestAtThisShop, some cheapestAnywhere =>
      if cheapestAnywhere.shop.id != shopId then
        let savings := cheapestAtThisShop.price - cheapestAnywhere.price
        if savings > 0 then
          match products.find? (fun p => p.id == productId) with
          | some product =>
            some {
              product := product
              currentBrand := cheapestAtThisShop
              currentPrice := cheapestAtThisShop.price
              cheapestPrice := cheapestAnywhere.price
              cheapestShop := cheapestAnywhere.shop
              cheapestBrand := cheapestAnywhere.brand
              savings := savings }
          | none => none
        else none
      else none
    | _, _ => none)).insertionSort altLe

/-- One entry of the `getBestShopsForShoppingList` result. -/
structure ShopRanking where
  shop : Shop
  productsAvailable : Nat
  cheapestProducts : Nat
  estimatedTotal : ℚ
  deriving Repr, DecidableEq

/-- The ranking comparator of `getBestShopsForShoppingList`: compare by
`productsAvailable` descending when they differ, else by `cheapestProducts`
descending (the source returns `b.x - a.x` differences). -/
def rankCompare (a b : ShopRanking) : ℤ :=
  if b.productsAvailable ≠ a.productsAvailable then
    (b.productsAvailable : ℤ) - (a.productsAvailable : ℤ)
  else
    (b.cheapestProducts : ℤ) - (a.cheapestProducts : ℤ)

/-- Comparator order of the ranking sort: `a` may precede `b` when
`rankCompare a b ≤ 0`. -/
def rankLe (a b : ShopRanking) : Prop :=
  rankCompare a b ≤ 0

instance : DecidableRel rankLe := fun a b =>
  inferInstanceAs (Decidable (rankCompare a b ≤ 0))

/-- `getBestShopsForShoppingList` from the brand-variant priceHelpers
(src/unnamed/part_001, lines 224-268): score every shop over the needed
products, drop shops with nothing available, sort by the ranking
comparator. -/
def getBestShopsForShoppingList (neededProducts : List Product)
    (shopProductBrands : List ShopProductBrand) (shops : List Shop) :
    List ShopRanking :=
  ((shops.map (fun shop =>
    neededProducts.foldl (fun acc product =>
      match getCheapestBrandAtShop product.id shop.id shopProductBrands with
      | none => acc
      | some cheapestAtShop =>
        let acc1 := { acc with
          productsAvailable := acc.productsAvailable + 1
          estimatedTotal := acc.estimatedTotal + cheapestAtShop.price }
        match getCheapestOption product.id shopProductBrands shops with
        | some cheapestAnywhere =>
          if cheapestAnywhere.shop.id == shop.id then
            { acc1 with cheapestProducts := acc1.cheapestProducts + 1 }
          else acc1
        | none => acc1)
      { shop := shop, productsAvailable := 0, cheapestProducts := 0,
        estimatedTotal := 0 })).filter
    (fun item => decide (item.productsAvailable > 0))).insertionSort rankLe

end Brand

instance : IsTotal Legacy.CheaperAlternative Legacy.altLe :=
  ⟨fun a b => by simp only [Legacy.altLe, sub_nonpos]; exact le_total _ _⟩

instance : IsTrans Legacy.CheaperAlternative Legacy.altLe :=
  ⟨fun a b c hab hbc => by
    simp only [Legacy.altLe, sub_nonpos] at *
    exact le_trans hbc hab⟩

instance : IsTotal ShopProductBrand Brand.brandLe :=
  ⟨fun a b => by simp only [Brand.brandLe, sub_nonpos]; exact le_total _ _⟩

instance : IsTrans ShopProductBrand Brand.brandLe :=
  ⟨fun a b c hab hbc => by
    simp only [Brand.brandLe, sub_nonpos] at *
    exact le_trans hab hbc⟩

instance : IsTotal Brand.ShopPriceGroup Brand.groupLe :=
  ⟨fun a b => by simp only [Brand.groupLe, sub_nonpos]; exact le_total _ _⟩

instance : IsTrans Brand.ShopPriceGroup Brand.groupLe :=
  ⟨fun a b c hab hbc => by
    simp only [Brand.groupLe, sub_nonpos] at *
    exact le_trans hab hbc⟩

instance : IsTotal Brand.CheaperAlternative Brand.altLe :=
  ⟨fun a b => by simp only [Brand.altLe, sub_nonpos]; exact le_total _ _⟩

instance : IsTrans Brand.CheaperAlternative Brand.altLe :=
  ⟨fun a b c hab hbc => by
    simp only [Brand.altLe, sub_nonpos] at *
    exact le_trans hbc hab⟩

instance : IsTotal Brand.ShopRanking Brand.rankLe :=
  ⟨fun a b => by
    simp only [Brand.rankLe, Brand.rankCompare]
    split <;> split <;> omega⟩

instance : IsTrans Brand.ShopRanking Brand.rankLe :=
  ⟨fun a b c hab hbc => by
    simp only [Brand.rankLe, Brand.rankCompare] at *
    split at hab <;> split at hbc <;> split <;> omega⟩

/-- Concrete shop catalog used to evaluate the theorems on closed inputs. -/
def demoShops : List Shop := [⟨"s1", "Aldi"⟩, ⟨"s2", "Lidl"⟩]

/-- Concrete brand price records: milk is 5 at s1 and 4 at s2. -/
def demoBrandRecords : List ShopProductBrand :=
  [⟨"r1", "p1", "s1", "BrandA", 5⟩, ⟨"r2", "p1", "s2", "BrandB", 4⟩]

/-- Concrete simple price records mirroring `demoBrandRecords`. -/
def demoShopRecords : List ShopProduct :=
  [⟨"r1", "p1", "s1", 5⟩, ⟨"r2", "p1", "s2", 4⟩]

/-- Concrete product catalog. -/
def demoProducts : List Product := [⟨"p1", "Milk"⟩]

/-- A single brand record whose shop is about to be looked up in an empty
catalog: cheapestAnywhere is absent although the record matches (p1, s1). -/
def cexBrandOnly : List ShopProductBrand := [⟨"rz", "p1", "s1", "BrandA", 5⟩]

/-- Simple-variant twin of `cexBrandOnly`. -/
def cexShopOnly : List ShopProduct := [⟨"rz", "p1", "s1", 5⟩]

/-- A single brand record pointing at shop sX, which no catalog below
contains: the minimum-price record is an orphan. -/
def cexBrandOrphan : List ShopProductBrand := [⟨"ro", "p1", "sX", "BrandA", 1⟩]

/-- Simple-variant twin of `cexBrandOrphan`. -/
def cexShopOrphan : List ShopProduct := [⟨"ro", "p1", "sX", 1⟩]

/-- An orphaned minimum-price record (shop sX, price 1) next to a usable
record (shop s1, price 2). -/
def cexBrandMixed : List ShopProductBrand :=
  [⟨"ro", "p1", "sX", "BrandA", 1⟩, ⟨"ru", "p1", "s1", "BrandB", 2⟩]

/-- Simple-variant twin of `cexBrandMixed`. -/
def cexShopMixed : List ShopProduct :=
  [⟨"ro", "p1", "sX", 1⟩, ⟨"ru", "p1", "s1", 2⟩]

/-- The comparison the brand variant produces for product p1 at shop s1 on
the demo data. -/
def demoComparison : PriceComparison :=
  { currentPrice := 5, cheapestPrice := 4, cheapestShopId := "s2",
    cheapestShopName := "Lidl", savings := 1, savingsPercent := 20,
    isCheapest := false }

/-- The comparison the brand variant produces for product p1 at shop s2 on
the demo data: s2 already offers the cheapest record. -/
def demoComparisonAtS2 : PriceComparison :=
  { currentPrice := 4, cheapestPrice := 4, cheapestShopId := "s2",
    cheapestShopName := "Lidl", savings := 0, savingsPercent := 0,
    isCheapest := true }

/-- Ranking the demo data produces for shop s2: one needed product
available, and it is the global cheapest there. -/
def demoRankingFirst : Brand.ShopRanking :=
  { shop := ⟨"s2", "Lidl"⟩, productsAvailable := 1, cheapestProducts := 1,
    estimatedTotal := 4 }

/-- Ranking the demo data produces for shop s1: one needed product
available, not the cheapest. -/
def demoRankingSecond : Brand.ShopRanking :=
  { shop := ⟨"s1", "Aldi"⟩, productsAvailable := 1, cheapestProducts := 0,
    estimatedTotal := 5 }

/-- First group `getAllPricesForProduct` produces on the demo data: Lidl
with the price-4 record. -/
def demoGroupFirst : Brand.ShopPriceGroup :=
  { shop := ⟨"s2", "Lidl"⟩, brands := [⟨"r2", "p1", "s2", "BrandB", 4⟩],
    cheapestPrice := 4 }

/-- Second group `getAllPricesForProduct` produces on the demo data: Aldi
with the price-5 record. -/
def demoGroupSecond : Brand.ShopPriceGroup :=
  { shop := ⟨"s1", "Aldi"⟩, brands := [⟨"r1", "p1", "s1", "BrandA", 5⟩],
    cheapestPrice := 5 }

/-- The single cheaper-elsewhere entry the brand variant produces when
shopping at s1 on the demo data: milk is 1 cheaper at Lidl. -/
def demoAlternative : Brand.CheaperAlternative :=
  { product := ⟨"p1", "Milk"⟩, currentBrand := ⟨"r1", "p1", "s1", "BrandA", 5⟩,
    currentPrice := 5, cheapestPrice := 4, cheapestShop := ⟨"s2", "Lidl"⟩,
    cheapestBrand := ⟨"r2", "p1", "s2", "BrandB", 4⟩, savings := 1 }

/-- Unfolding `reduceMinPrice` one step. -/
theorem reduceMinPrice_cons {α : Type} (price : α → ℚ) (first x : α) (xs : List α) :
    reduceMinPrice price first (x :: xs)
      = reduceMinPrice price (if price x < price first then x else first) xs :=
  rfl

/-- The seedless JavaScript reduce returns an element of the array. -/
theorem reduceMinPrice_mem {α : Type} (price : α → ℚ) :
    ∀ (rest : List α) (first : α), reduceMinPrice price first rest ∈ first :: rest := by
  intro rest
  induction rest with
  | nil => intro first; simp [reduceMinPrice]
  | cons x xs ih =>
    intro first
    rw [reduceMinPrice_cons]
    rcases List.mem_cons.mp (ih (if price x < price first then x else first)) with h | h
    · rw [h]; split <;> simp
    · simp [h]

/-- The seedless JavaScript reduce returns a minimum-price element. -/
theorem reduceMinPrice_le {α : Type} (price : α → ℚ) :
    ∀ (rest : List α) (first : α), ∀ x ∈ first :: rest,
      price (reduceMinPrice price first rest) ≤ price x := by
  intro rest
  induction rest with
  | nil =>
    intro first x hx
    rcases List.mem_cons.mp hx with h | h
    · subst h; simp [reduceMinPrice]
    · simp at h
  | cons y ys ih =>
    intro first x hx
    rw [reduceMinPrice_cons]
    have h1 : price (if price y < price first then y else first) ≤ price first := by
      split <;> [exact le_of_lt (by assumption); exact le_refl _]
    have h2 : price (if price y < price first then y else first) ≤ price y := by
      split <;> [exact le_refl _; exact le_of_not_lt (by assumption)]
    have hhead := ih (if price y < price first then y else first)
      (if price y < price first then y else first) (List.mem_cons_self _ _)
    rcases List.mem_cons.mp hx with h | h
    · subst h; exact le_trans hhead h1
    rcases List.mem_cons.mp h with h | h
    · subst h; exact le_trans hhead h2
    · exact ih _ x (List.mem_cons_of_mem _ h)

/-- First-minimum characterization of the seedless reduce: the result is the
first element of the array whose price is at most the minimum, i.e. every
element strictly before it is strictly more expensive. -/
theorem reduceMinPrice_find? {α : Type} (price : α → ℚ) :
    ∀ (rest : List α) (first : α),
      (first :: rest).find?
        (fun x => decide (price x ≤ price (reduceMinPrice price first rest)))
        = some (reduceMinPrice price first rest) := by
  intro rest
  induction rest with
  | nil =>
    intro first
    simp [reduceMinPrice]
  | cons y ys ih =>
    intro first
    by_cases hyf : price y < price first
    · have hre : reduceMinPrice price first (y :: ys) = reduceMinPrice price y ys := by
        rw [reduceMinPrice_cons, if_pos hyf]
      have hrle : price (reduceMinPrice price y ys) ≤ price y :=
        reduceMinPrice_le price ys y y (List.mem_cons_self _ _)
      rw [hre, List.find?_cons_of_neg, ih y]
      simpa using lt_of_le_of_lt hrle hyf
    · have hre : reduceMinPrice price first (y :: ys) = reduceMinPrice price first ys := by
        rw [reduceMinPrice_cons, if_neg hyf]
      rw [hre]
      by_cases hp : price first ≤ price (reduceMinPrice price first ys)
      · have hfe : reduceMinPrice price first ys = first := by
          have := ih first
          rw [List.find?_cons_of_pos _ (by simpa using hp)] at this
          exact (Option.some.inj this).symm
        rw [List.find?_cons_of_pos _ (by simpa using hp), hfe]
      · have hih := ih first
        rw [List.find?_cons_of_neg _ (by simpa using hp)] at hih
        rw [List.find?_cons_of_neg _ (by simpa using hp),
          List.find?_cons_of_neg]
        · exact hih
        · have hyr : ¬ price y ≤ price (reduceMinPrice price first ys) := by
            intro hcon
            exact hp (le_trans (le_of_not_lt hyf) hcon)
          simpa using hyr

/-- If `g` is the first element of `l` satisfying `P` and `g` survives the
filter `Q`, then `g` is also the first element of `l.filter Q` satisfying
`P`. -/
theorem find?_filter_of_find? {α : Type} {P Q : α → Bool} :
    ∀ (l : List α) (g : α), l.find? P = some g → Q g = true →
      (l.filter Q).find? P = some g := by
  intro l
  induction l with
  | nil => intro g h _; simp at h
  | cons a t ih =>
    intro g h hQ
    by_cases hPa : P a = true
    · rw [List.find?_cons_of_pos _ hPa] at h
      obtain rfl : a = g := Option.some.inj h
      rw [List.filter_cons_of_pos hQ, List.find?_cons_of_pos _ hPa]
    · rw [List.find?_cons_of_neg _ hPa] at h
      by_cases hQa : Q a = true
      · rw [List.filter_cons_of_pos hQa, List.find?_cons_of_neg _ hPa]
        exact ih g h hQ
      · rw [List.filter_cons_of_neg (by simpa using hQa)]
        exact ih g h hQ

/-- Elements of `jsSetDedupAux seen xs` come from `xs`. -/
theorem jsSetDedupAux_subset :
    ∀ (xs seen : List String) (x : String), x ∈ jsSetDedupAux seen xs → x ∈ xs := by
  intro xs
  induction xs with
  | nil => intro seen x h; simp [jsSetDedupAux] at h
  | cons y ys ih =>
    intro seen x h
    rw [jsSetDedupAux] at h
    split at h
    · exact List.mem_cons_of_mem _ (ih seen x h)
    · rcases List.mem_cons.mp h with h | h
      · exact h ▸ List.mem_cons_self _ _
      · exact List.mem_cons_of_mem _ (ih (y :: seen) x h)

/-- Elements of `jsSetDedup xs` come from `xs`. -/
theorem jsSetDedup_subset (xs : List String) (x : String)
    (h : x ∈ jsSetDedup xs) : x ∈ xs :=
  jsSetDedupAux_subset xs [] x h

/-- Inversion of a successful `Brand.getCheapestBrandAtShop`: the shop-local
record list is non-empty and the result is its first-minimum. -/
theorem brand_cheapestAtShop_inv {productId shopId : String}
    {spbs : List ShopProductBrand} {a : ShopProductBrand}
    (h : Brand.getCheapestBrandAtShop productId shopId spbs = some a) :
    ∃ hd tl,
      spbs.filter (fun spb => spb.productId == productId && spb.shopId == shopId)
        = hd :: tl ∧
      a = reduceMinPrice ShopProductBrand.price hd tl := by
  unfold Brand.getCheapestBrandAtShop at h
  cases hf : spbs.filter
      (fun spb => spb.productId == productId && spb.shopId == shopId) with
  | nil => rw [hf] at h; simp at h
  | cons hd tl =>
    rw [hf] at h
    exact ⟨hd, tl, rfl, (Option.some.inj h).symm⟩

/-- Inversion of a successful brand-variant `getPriceComparison`. -/
theorem brand_comparison_inv {productId shopId : String}
    {spbs : List ShopProductBrand} {shops : List Shop} {c : PriceComparison}
    (h : Brand.getPriceComparison productId shopId spbs shops = some c) :
    ∃ a hd tl,
      Brand.getCheapestBrandAtShop productId shopId spbs = some a ∧
      spbs.filter (fun spb => spb.productId == productId) = hd :: tl ∧
      c = {
        currentPrice := a.price
        cheapestPrice := (reduceMinPrice ShopProductBrand.price hd tl).price
        cheapestShopId := (reduceMinPrice ShopProductBrand.price hd tl).shopId
        cheapestShopName := jsNameOrUnknown (shops.find?
          (fun s => s.id == (reduceMinPrice ShopProductBrand.price hd tl).shopId))
        savings := a.price - (reduceMinPrice ShopProductBrand.price hd tl).price
        savingsPercent :=
          if a.price > 0 then
            (a.price - (reduceMinPrice ShopProductBrand.price hd tl).price)
              / a.price * 100
          else 0
        isCheapest := a.id == (reduceMinPrice ShopProductBrand.price hd tl).id } := by
  unfold Brand.getPriceComparison at h
  cases ha : Brand.getCheapestBrandAtShop productId shopId spbs with
  | none => rw [ha] at h; simp at h
  | some a =>
    rw [ha] at h
    cases hf : spbs.filter (fun spb => spb.productId == productId) with
    | nil => rw [hf] at h; simp at h
    | cons hd tl =>
      rw [hf] at h
      exact ⟨a, hd, tl, rfl, rfl, (Option.some.inj h).symm⟩

/-- Inversion of a successful simple-variant `getPriceComparison`. -/
theorem legacy_comparison_inv {productId shopId : String}
    {sps : List ShopProduct} {shops : List Shop} {c : PriceComparison}
    (h : Legacy.getPriceComparison productId shopId sps shops = some c) :
    ∃ cur hd tl,
      sps.find? (fun sp => sp.productId == productId && sp.shopId == shopId)
        = some cur ∧
      sps.filter (fun sp => sp.productId == productId) = hd :: tl ∧
      c = {
        currentPrice := cur.price
        cheapestPrice := (reduceMinPrice ShopProduct.price hd tl).price
        cheapestShopId := (reduceMinPrice ShopProduct.price hd tl).shopId
        cheapestShopName := jsNameOrUnknown (shops.find?
          (fun s => s.id == (reduceMinPrice ShopProduct.price hd tl).shopId))
        savings := cur.price - (reduceMinPrice ShopProduct.price hd tl).price
        savingsPercent :=
          if cur.price > 0 then
            (cur.price - (reduceMinPrice ShopProduct.price hd tl).price)
              / cur.price * 100
          else 0
        isCheapest := cur.shopId == (reduceMinPrice ShopProduct.price hd tl).shopId } := by
  unfold Legacy.getPriceComparison at h
  cases hcur : sps.find?
      (fun sp => sp.productId == productId && sp.shopId == shopId) with
  | none => rw [hcur] at h; simp at h
  | some cur =>
    rw [hcur] at h
    cases hf : sps.filter (fun sp => sp.productId == productId) with
    | nil => rw [hf] at h; simp at h
    | cons hd tl =>
      rw [hf] at h
      exact ⟨cur, hd, tl, rfl, rfl, (Option.some.inj h).symm⟩

/-- Claim C7: whenever `getPriceComparison` returns a result, its
`savingsPercent` is `savings / currentPrice * 100` when the current price is
strictly positive, and `0` when the current price is `0`, regardless of the
cheapest price.  Proved for both the brand variant and the simple variant. -/
theorem C7_savingsPercent_formula :
    (∀ (productId shopId : String) (spbs : List ShopProductBrand)
        (shops : List Shop) (c : PriceComparison),
      Brand.getPriceComparison productId shopId spbs shops = some c →
        (0 < c.currentPrice → c.savingsPercent = c.savings / c.currentPrice * 100) ∧
        (c.currentPrice = 0 → c.savingsPercent = 0)) ∧
    (∀ (productId shopId : String) (sps : List ShopProduct)
        (shops : List Shop) (c : PriceComparison),
      Legacy.getPriceComparison productId shopId sps shops = some c →
        (0 < c.currentPrice → c.savingsPercent = c.savings / c.currentPrice * 100) ∧
        (c.currentPrice = 0 → c.savingsPercent = 0)) := by
  constructor
  · intro productId shopId spbs shops c h
    obtain ⟨a, hd, tl, -, -, hc⟩ := brand_comparison_inv h
    subst hc
    constructor
    · intro hpos
      simp only [gt_iff_lt] at *
      rw [if_pos hpos]
    · intro hzero
      simp only at hzero
      simp [hzero]
  · intro productId shopId sps shops c h
    obtain ⟨cur, hd, tl, -, -, hc⟩ := legacy_comparison_inv h
    subst hc
    constructor
    · intro hpos
      simp only [gt_iff_lt] at *
      rw [if_pos hpos]
    · intro hzero
      simp only at hzero
      simp [hzero]

/-- Witness for C7 on the demo data: at shop s1 the percentage is
`1 / 5 * 100 = 20`. -/
theorem C7_savingsPercent_formula_witness :
    demoComparison.savingsPercent
      = demoComparison.savings / demoComparison.currentPrice * 100 := by
  have h : Brand.getPriceComparison "p1" "s1" demoBrandRecords demoShops
      = some demoComparison := by
    simp [Brand.getPriceComparison, Brand.getCheapestBrandAtShop,
      demoBrandRecords, demoShops, reduceMinPrice, jsNameOrUnknown,
      demoComparison]
    norm_num
    decide
  exact (C7_savingsPercent_formula.1 "p1" "s1" demoBrandRecords demoShops
    demoComparison h).1 (by norm_num [demoComparison])

/-- Claim C10: whenever `getPriceComparison` returns a result, the cheapest
price never exceeds the current price, `savings = currentPrice -
cheapestPrice`, and hence savings are never negative: the current shop's
records are among the candidates scanned for the global minimum.  Proved
for both variants. -/
theorem C10_savings_nonneg :
    (∀ (productId shopId : String) (spbs : List ShopProductBrand)
        (shops : List Shop) (c : PriceComparison),
      Brand.getPriceComparison productId shopId spbs shops = some c →
        c.savings = c.currentPrice - c.cheapestPrice ∧
        c.cheapestPrice ≤ c.currentPrice ∧ 0 ≤ c.savings) ∧
    (∀ (productId shopId : String) (sps : List ShopProduct)
        (shops : List Shop) (c : PriceComparison),
      Legacy.getPriceComparison productId shopId sps shops = some c →
        c.savings = c.currentPrice - c.cheapestPrice ∧
        c.cheapestPrice ≤ c.currentPrice ∧ 0 ≤ c.savings) := by
  constructor
  · intro productId shopId spbs shops c h
    obtain ⟨a, hd, tl, ha, hf, hc⟩ := brand_comparison_inv h
    obtain ⟨hd2, tl2, hf2, ha2⟩ := brand_cheapestAtShop_inv ha
    have hamem : a ∈ spbs.filter
        (fun spb => spb.productId == productId && spb.shopId == shopId) := by
      rw [hf2, ha2]; exact reduceMinPrice_mem _ tl2 hd2
    have hamem' : a ∈ spbs.filter (fun spb => spb.productId == productId) := by
      rcases List.mem_filter.mp hamem with ⟨hmem, hpred⟩
      refine List.mem_filter.mpr ⟨hmem, ?_⟩
      exact (Bool.and_eq_true _ _).mp hpred |>.1
    have hle : (reduceMinPrice ShopProductBrand.price hd tl).price ≤ a.price := by
      apply reduceMinPrice_le
      rw [← hf]; exact hamem'
    subst hc
    refine ⟨rfl, hle, ?_⟩
    simpa using hle
  · intro productId shopId sps shops c h
    obtain ⟨cur, hd, tl, hcur, hf, hc⟩ := legacy_comparison_inv h
    have hmem : cur ∈ sps := List.mem_of_find?_eq_some hcur
    have hpred := List.find?_some hcur
    have hmem' : cur ∈ sps.filter (fun sp => sp.productId == productId) := by
      refine List.mem_filter.mpr ⟨hmem, ?_⟩
      exact (Bool.and_eq_true _ _).mp hpred |>.1
    have hle : (reduceMinPrice ShopProduct.price hd tl).price ≤ cur.price := by
      apply reduceMinPrice_le
      rw [← hf]; exact hmem'
    subst hc
    refine ⟨rfl, hle, ?_⟩
    simpa using hle

/-- Witness for C10 on the demo data at shop s1: savings `1` is
non-negative and `4 ≤ 5`. -/
theorem C10_savings_nonneg_witness :
    demoComparison.cheapestPrice ≤ demoComparison.currentPrice ∧
    0 ≤ demoComparison.savings := by
  have hsome : Brand.getPriceComparison "p1" "s1" demoBrandRecords demoShops
      = some demoComparison := by
    simp [Brand.getPriceComparison, Brand.getCheapestBrandAtShop,
      demoBrandRecords, demoShops, reduceMinPrice, jsNameOrUnknown,
      demoComparison]
    norm_num
    decide
  have h := C10_savings_nonneg.1 "p1" "s1" demoBrandRecords demoShops
    demoComparison hsome
  exact ⟨h.2.1, h.2.2⟩

/-- Counterexample to claim C2 as stated: with a single record matching
(p1, s1) whose shop id resolves to nothing (empty catalog),
`cheapestAnywhere` (`getCheapestOption` / `getCheapestShop`) is absent, yet
`getPriceComparison` still returns a result instead of absent — in both
variants. -/
theorem C2_counterexample :
    Brand.getCheapestOption "p1" cexBrandOnly [] = none ∧
    (Brand.getPriceComparison "p1" "s1" cexBrandOnly []).isSome = true ∧
    Legacy.getCheapestShop "p1" cexShopOnly [] = none ∧
    (Legacy.getPriceComparison "p1" "s1" cexShopOnly []).isSome = true :=
  ⟨rfl, rfl, rfl, rfl⟩

/-- Claim C2 (amended): `getPriceComparison` returns a result exactly when a
record matching (productId, shopId) exists; an absent `cheapestAnywhere`
(unresolvable cheapest-shop reference) does not make the comparison absent —
the shop is reported with name "Unknown" instead.  Both variants. -/
theorem C2_amended_present_iff_matching_record :
    (∀ (productId shopId : String) (spbs : List ShopProductBrand)
        (shops : List Shop),
      (Brand.getPriceComparison productId shopId spbs shops).isSome = true ↔
        ∃ spb ∈ spbs, spb.productId = productId ∧ spb.shopId = shopId) ∧
    (∀ (productId shopId : String) (sps : List ShopProduct)
        (shops : List Shop),
      (Legacy.getPriceComparison productId shopId sps shops).isSome = true ↔
        ∃ sp ∈ sps, sp.productId = productId ∧ sp.shopId = shopId) := by
  constructor
  · intro productId shopId spbs shops
    constructor
    · intro h
      obtain ⟨c, hc⟩ := Option.isSome_iff_exists.mp h
      obtain ⟨a, hd, tl, ha, -, -⟩ := brand_comparison_inv hc
      obtain ⟨hd2, tl2, hf2, ha2⟩ := brand_cheapestAtShop_inv ha
      have hmem : a ∈ spbs.filter
          (fun spb => spb.productId == productId && spb.shopId == shopId) := by
        rw [hf2, ha2]; exact reduceMinPrice_mem _ tl2 hd2
      rcases List.mem_filter.mp hmem with ⟨hmem', hpred⟩
      rcases (Bool.and_eq_true _ _).mp hpred with ⟨h1, h2⟩
      exact ⟨a, hmem', by simpa using h1, by simpa using h2⟩
    · rintro ⟨spb, hmem, h1, h2⟩
      have hin2 : spb ∈ spbs.filter
          (fun spb => spb.productId == productId && spb.shopId == shopId) :=
        List.mem_filter.mpr ⟨hmem, by simp [h1, h2]⟩
      obtain ⟨hd2, tl2, hf2⟩ :=
        List.exists_cons_of_ne_nil (List.ne_nil_of_mem hin2)
      have hin : spb ∈ spbs.filter (fun spb => spb.productId == productId) :=
        List.mem_filter.mpr ⟨hmem, by simp [h1]⟩
      obtain ⟨hd, tl, hf⟩ := List.exists_cons_of_ne_nil (List.ne_nil_of_mem hin)
      unfold Brand.getPriceComparison Brand.getCheapestBrandAtShop
      rw [hf2, hf]
      rfl
  · intro productId shopId sps shops
    constructor
    · intro h
      obtain ⟨c, hc⟩ := Option.isSome_iff_exists.mp h
      obtain ⟨cur, hd, tl, hcur, -, -⟩ := legacy_comparison_inv hc
      have hmem := List.mem_of_find?_eq_some hcur
      have hpred := List.find?_some hcur
      rcases (Bool.and_eq_true _ _).mp hpred with ⟨h1, h2⟩
      exact ⟨cur, hmem, by simpa using h1, by simpa using h2⟩
    · rintro ⟨sp, hmem, h1, h2⟩
      have hfindSome : (sps.find?
          (fun sp => sp.productId == productId && sp.shopId == shopId)).isSome
            = true :=
        List.find?_isSome.mpr ⟨sp, hmem, by simp [h1, h2]⟩
      obtain ⟨cur, hcur⟩ := Option.isSome_iff_exists.mp hfindSome
      have hmem' := List.mem_of_find?_eq_some hcur
      have hpred' := List.find?_some hcur
      rcases (Bool.and_eq_true _ _).mp hpred' with ⟨hc1, -⟩
      have hin : cur ∈ sps.filter (fun sp => sp.productId == productId) :=
        List.mem_filter.mpr ⟨hmem', hc1⟩
      obtain ⟨hd, tl, hf⟩ :=
        List.exists_cons_of_ne_nil (List.ne_nil_of_mem hin)
      unfold Legacy.getPriceComparison
      rw [hcur, hf]
      rfl

/-- Witness for the amended C2: the comparison at (p1, s1) is present on
`cexBrandOnly` although the shop catalog is empty. -/
theorem C2_amended_present_iff_matching_record_witness :
    (Brand.getPriceComparison "p1" "s1" cexBrandOnly []).isSome = true :=
  (C2_amended_present_iff_matching_record.1 "p1" "s1" cexBrandOnly []).mpr
    ⟨⟨"rz", "p1", "s1", "BrandA", 5⟩, by simp [cexBrandOnly], rfl, rfl⟩

/-- Counterexample to claim C3 as stated: one record matches p1, yet
`cheapestAnywhere` returns absent (not a result carrying the minimum price)
because the minimum-price record's shop id resolves to nothing — in both
variants. -/
theorem C3_counterexample :
    (cexBrandOrphan.filter (fun spb => spb.productId == "p1")).length = 1 ∧
    Brand.getCheapestOption "p1" cexBrandOrphan demoShops = none ∧
    (cexShopOrphan.filter (fun sp => sp.productId == "p1")).length = 1 ∧
    Legacy.getCheapestShop "p1" cexShopOrphan demoShops = none :=
  ⟨rfl, rfl, rfl, rfl⟩

/-- Claim C3 (amended): when at least one record matches the product and,
additionally, the minimum-price matching record's shop id resolves in the
catalog, `cheapestAnywhere` returns that record with the shop, and its price
is the minimum of all matching records' prices.  Both variants. -/
theorem C3_amended_min_price_when_shop_resolves :
    (∀ (productId : String) (spbs : List ShopProductBrand) (shops : List Shop)
        (hd : ShopProductBrand) (tl : List ShopProductBrand) (sh : Shop),
      spbs.filter (fun spb => spb.productId == productId) = hd :: tl →
      shops.find? (fun s =>
          s.id == (reduceMinPrice ShopProductBrand.price hd tl).shopId)
        = some sh →
      Brand.getCheapestOption productId spbs shops
          = some ⟨sh, reduceMinPrice ShopProductBrand.price hd tl,
              (reduceMinPrice ShopProductBrand.price hd tl).price⟩ ∧
        (∀ x ∈ hd :: tl,
          (reduceMinPrice ShopProductBrand.price hd tl).price ≤ x.price) ∧
        reduceMinPrice ShopProductBrand.price hd tl ∈ hd :: tl) ∧
    (∀ (productId : String) (sps : List ShopProduct) (shops : List Shop)
        (hd : ShopProduct) (tl : List ShopProduct) (sh : Shop),
      sps.filter (fun sp => sp.productId == productId) = hd :: tl →
      shops.find? (fun s =>
          s.id == (reduceMinPrice ShopProduct.price hd tl).shopId) = some sh →
      Legacy.getCheapestShop productId sps shops
          = some (sh, (reduceMinPrice ShopProduct.price hd tl).price) ∧
        (∀ x ∈ hd :: tl,
          (reduceMinPrice ShopProduct.price hd tl).price ≤ x.price) ∧
        reduceMinPrice ShopProduct.price hd tl ∈ hd :: tl) := by
  constructor
  · intro productId spbs shops hd tl sh hf hs
    refine ⟨?_, reduceMinPrice_le _ tl hd, reduceMinPrice_mem _ tl hd⟩
    unfold Brand.getCheapestOption
    rw [hf]
    dsimp only
    rw [hs]
  · intro productId sps shops hd tl sh hf hs
    refine ⟨?_, reduceMinPrice_le _ tl hd, reduceMinPrice_mem _ tl hd⟩
    unfold Legacy.getCheapestShop
    rw [hf]
    dsimp only
    rw [hs]

/-- Witness for the amended C3 on the demo data: the cheapest option for p1
is the price-4 record at Lidl. -/
theorem C3_amended_min_price_when_shop_resolves_witness :
    Brand.getCheapestOption "p1" demoBrandRecords demoShops
      = some ⟨⟨"s2", "Lidl"⟩, ⟨"r2", "p1", "s2", "BrandB", 4⟩, 4⟩ :=
  (C3_amended_min_price_when_shop_resolves.1 "p1" demoBrandRecords demoShops
    ⟨"r1", "p1", "s1", "BrandA", 5⟩ [⟨"r2", "p1", "s2", "BrandB", 4⟩]
    ⟨"s2", "Lidl"⟩ rfl rfl).1

/-- Counterexample to claim C8 as stated: the minimum-price record for p1 is
an orphan (shop sX unresolvable) while a usable record exists at s1; instead
of silently excluding the orphan and answering from the usable record,
`cheapestAnywhere` returns absent — in both variants. -/
theorem C8_counterexample :
    (cexBrandMixed.filter
      (fun spb => spb.productId == "p1" && spb.shopId == "s1")).length = 1 ∧
    Brand.getCheapestOption "p1" cexBrandMixed demoShops = none ∧
    Legacy.getCheapestShop "p1" cexShopMixed demoShops = none :=
  ⟨rfl, rfl, rfl⟩

/-- Claim C8 (amended): when the minimum-price matching record's shop id
does not resolve, `cheapestAnywhere` returns absent for the whole query (it
fails soft, without raising) — the orphaned record is not excluded and the
remaining usable records are not reconsidered.  Both variants. -/
theorem C8_amended_orphan_min_aborts_query :
    (∀ (productId : String) (spbs : List ShopProductBrand) (shops : List Shop)
        (hd : ShopProductBrand) (tl : List ShopProductBrand),
      spbs.filter (fun spb => spb.productId == productId) = hd :: tl →
      shops.find? (fun s =>
          s.id == (reduceMinPrice ShopProductBrand.price hd tl).shopId) = none →
      Brand.getCheapestOption productId spbs shops = none) ∧
    (∀ (productId : String) (sps : List ShopProduct) (shops : List Shop)
        (hd : ShopProduct) (tl : List ShopProduct),
      sps.filter (fun sp => sp.productId == productId) = hd :: tl →
      shops.find? (fun s =>
          s.id == (reduceMinPrice ShopProduct.price hd tl).shopId) = none →
      Legacy.getCheapestShop productId sps shops = none) := by
  constructor
  · intro productId spbs shops hd tl hf hs
    unfold Brand.getCheapestOption
    rw [hf]
    dsimp only
    rw [hs]
  · intro productId sps shops hd tl hf hs
    unfold Legacy.getCheapestShop
    rw [hf]
    dsimp only
    rw [hs]

/-- Witness for the amended C8 on the mixed counterexample data. -/
theorem C8_amended_orphan_min_aborts_query_witness :
    Brand.getCheapestOption "p1" cexBrandMixed demoShops = none :=
  C8_amended_orphan_min_aborts_query.1 "p1" cexBrandMixed demoShops
    ⟨"ro", "p1", "sX", "BrandA", 1⟩ [⟨"ru", "p1", "s1", "BrandB", 2⟩] rfl rfl

/-- Accumulator-general description of the `calculateListTotalAtShop` fold:
the final state adds, to the incoming state, the sum of the priced items'
contributions and the counts of priced and unpriced items. -/
theorem listTotalStep_foldl (shopId : String) (sps : List ShopProduct) :
    ∀ (items : List Legacy.ListItem) (acc : Legacy.ListTotal),
      items.foldl (Legacy.listTotalStep shopId sps) acc
        = { total := acc.total
              + (items.map (Legacy.itemContribution shopId sps)).sum
            itemsWithPrices := acc.itemsWithPrices
              + (items.filter (Legacy.itemHasPricedRecord shopId sps)).length
            itemsWithoutPrices := acc.itemsWithoutPrices
              + (items.filter
                  (fun it => !(Legacy.itemHasPricedRecord shopId sps it))).length } := by
  intro items
  induction items with
  | nil => intro acc; simp
  | cons it its ih =>
    intro acc
    rw [List.foldl_cons, ih]
    cases hpid : it.productId with
    | none =>
      simp only [Legacy.listTotalStep, Legacy.itemContribution,
        Legacy.itemHasPricedRecord, hpid, List.map_cons, List.sum_cons,
        List.filter_cons, Bool.not_false, Legacy.ListTotal.mk.injEq]
      refine ⟨by ring, by simp, by simp; try omega⟩
    | some pid =>
      by_cases hempty : pid = ""
      · subst hempty
        simp only [Legacy.listTotalStep, Legacy.itemContribution,
          Legacy.itemHasPricedRecord, hpid, List.map_cons, List.sum_cons,
          List.filter_cons, Legacy.ListTotal.mk.injEq]
        refine ⟨by simp; try ring, by simp, by simp; try omega⟩
      · cases hfind : sps.find?
            (fun sp => sp.productId == pid && sp.shopId == shopId) with
        | none =>
          simp only [Legacy.listTotalStep, Legacy.itemContribution,
            Legacy.itemHasPricedRecord, hpid, hfind, List.map_cons,
            List.sum_cons, List.filter_cons, Legacy.ListTotal.mk.injEq]
          refine ⟨by simp [hempty]; try ring, by simp [hempty], by simp [hempty]; try omega⟩
        | some sp =>
          simp only [Legacy.listTotalStep, Legacy.itemContribution,
            Legacy.itemHasPricedRecord, hpid, hfind, List.map_cons,
            List.sum_cons, List.filter_cons, Legacy.ListTotal.mk.injEq]
          refine ⟨by simp [hempty]; try ring, by simp [hempty]; try omega, by simp [hempty]⟩

/-- Claim C9: `calculateListTotalAtShop` returns a total equal to the sum of
matched price times quantity over exactly the items that have a (truthy)
productId with a price record at the shop, counts those items as
`itemsWithPrices`, counts the remaining items as `itemsWithoutPrices`, and
the two counts add up to the number of items. -/
theorem C9_list_total_characterization :
    ∀ (items : List Legacy.ListItem) (shopId : String)
      (sps : List ShopProduct),
      (Legacy.calculateListTotalAtShop items shopId sps).total
          = (items.map (Legacy.itemContribution shopId sps)).sum ∧
      (Legacy.calculateListTotalAtShop items shopId sps).itemsWithPrices
          = (items.filter (Legacy.itemHasPricedRecord shopId sps)).length ∧
      (Legacy.calculateListTotalAtShop items shopId sps).itemsWithoutPrices
          = (items.filter
              (fun it => !(Legacy.itemHasPricedRecord shopId sps it))).length ∧
      (Legacy.calculateListTotalAtShop items shopId sps).itemsWithPrices
          + (Legacy.calculateListTotalAtShop items shopId sps).itemsWithoutPrices
          = items.length := by
  intro items shopId sps
  unfold Legacy.calculateListTotalAtShop
  rw [listTotalStep_foldl]
  refine ⟨by simp, by simp, by simp, ?_⟩
  simp only [Nat.zero_add]
  have hperm := (List.filter_append_perm
    (Legacy.itemHasPricedRecord shopId sps) items).length_eq
  simpa [List.length_append] using hperm

/-- Inversion of a successful `Legacy.cheapestAtShop`. -/
theorem legacy_cheapestAtShop_inv {productId shopId : String}
    {sps : List ShopProduct} {a : ShopProduct}
    (h : Legacy.cheapestAtShop productId shopId sps = some a) :
    ∃ hd tl,
      sps.filter (fun sp => sp.productId == productId && sp.shopId == shopId)
        = hd :: tl ∧
      a = reduceMinPrice ShopProduct.price hd tl := by
  unfold Legacy.cheapestAtShop at h
  cases hf : sps.filter
      (fun sp => sp.productId == productId && sp.shopId == shopId) with
  | nil => rw [hf] at h; simp at h
  | cons hd tl =>
    rw [hf] at h
    exact ⟨hd, tl, rfl, (Option.some.inj h).symm⟩

/-- Claim C1: for every comparison `getPriceComparison` returns, the
`isCheapest` flag is true if and only if the cheapest record for the product
at the queried shop is the very record selected as cheapest-anywhere (same
record, identified by its record id) — not merely one of equal price.  The
brand variant compares record ids directly; the simple variant compares shop
ids, which under unique record ids coincides with record identity. -/
theorem C1_isCheapest_iff_same_record :
    (∀ (productId shopId : String) (spbs : List ShopProductBrand)
        (shops : List Shop) (c : PriceComparison) (a b : ShopProductBrand),
      (spbs.map ShopProductBrand.id).Nodup →
      Brand.getPriceComparison productId shopId spbs shops = some c →
      Brand.getCheapestBrandAtShop productId shopId spbs = some a →
      Brand.cheapestRecordAnywhere productId spbs = some b →
      (c.isCheapest = true ↔ a = b)) ∧
    (∀ (productId shopId : String) (sps : List ShopProduct)
        (shops : List Shop) (c : PriceComparison) (a b : ShopProduct),
      Legacy.getPriceComparison productId shopId sps shops = some c →
      Legacy.cheapestAtShop productId shopId sps = some a →
      Legacy.cheapestRecordAnywhere productId sps = some b →
      (c.isCheapest = true ↔ a = b)) := by
  constructor
  · intro productId shopId spbs shops c a b hN hc ha hb
    obtain ⟨a', hd, tl, ha', hf, hcf⟩ := brand_comparison_inv hc
    have heq : a' = a := Option.some.inj (ha'.symm.trans ha)
    subst heq
    have hb' : b = reduceMinPrice ShopProductBrand.price hd tl := by
      unfold Brand.cheapestRecordAnywhere at hb
      rw [hf] at hb
      exact (Option.some.inj hb).symm
    subst hcf
    obtain ⟨hd2, tl2, hf2, ha2⟩ := brand_cheapestAtShop_inv ha'
    constructor
    · intro h
      have hid : a'.id = b.id := by
        have hbeq : (a'.id == (reduceMinPrice ShopProductBrand.price hd tl).id)
            = true := h
        rw [← hb'] at hbeq
        exact beq_iff_eq.mp hbeq
      have hamem : a' ∈ spbs := by
        have hmf : a' ∈ spbs.filter
            (fun spb => spb.productId == productId && spb.shopId == shopId) := by
          rw [hf2, ha2]; exact reduceMinPrice_mem _ tl2 hd2
        exact (List.mem_filter.mp hmf).1
      have hbmem : b ∈ spbs := by
        have hmf : b ∈ spbs.filter (fun spb => spb.productId == productId) := by
          rw [hf, hb']; exact reduceMinPrice_mem _ tl hd
        exact (List.mem_filter.mp hmf).1
      exact List.inj_on_of_nodup_map hN hamem hbmem hid
    · intro hab
      show (a'.id == (reduceMinPrice ShopProductBrand.price hd tl).id) = true
      rw [← hb', hab]
      simp
  · intro productId shopId sps shops c a b hc ha hb
    obtain ⟨cur, hd, tl, hcur, hf, hcf⟩ := legacy_comparison_inv hc
    have hb' : b = reduceMinPrice ShopProduct.price hd tl := by
      unfold Legacy.cheapestRecordAnywhere at hb
      rw [hf] at hb
      exact (Option.some.inj hb).symm
    obtain ⟨hd2, tl2, hf2, ha2⟩ := legacy_cheapestAtShop_inv ha
    have hpredc := List.find?_some hcur
    rcases (Bool.and_eq_true _ _).mp hpredc with ⟨-, hc2⟩
    have hcur_sid : cur.shopId = shopId := by simpa using hc2
    subst hcf
    have hamem2 : a ∈ sps.filter
        (fun sp => sp.productId == productId && sp.shopId == shopId) := by
      rw [hf2, ha2]; exact reduceMinPrice_mem _ tl2 hd2
    rcases List.mem_filter.mp hamem2 with ⟨hamem, hapred⟩
    rcases (Bool.and_eq_true _ _).mp hapred with ⟨hap1, hap2⟩
    have hamem_pid : a ∈ sps.filter (fun sp => sp.productId == productId) :=
      List.mem_filter.mpr ⟨hamem, hap1⟩
    constructor
    · intro h
      have hsid_b : b.shopId = shopId := by
        have hbeq : (cur.shopId
            == (reduceMinPrice ShopProduct.price hd tl).shopId) = true := h
        rw [← hb'] at hbeq
        rw [← hcur_sid]
        exact (beq_iff_eq.mp hbeq).symm
      have hbmem_pid : b ∈ sps.filter (fun sp => sp.productId == productId) := by
        rw [hf, hb']; exact reduceMinPrice_mem _ tl hd
      rcases List.mem_filter.mp hbmem_pid with ⟨hbmem, hbpred⟩
      have hbmem_conj : b ∈ sps.filter
          (fun sp => sp.productId == productId && sp.shopId == shopId) :=
        List.mem_filter.mpr ⟨hbmem, by
          rw [Bool.and_eq_true]
          exact ⟨hbpred, by simpa using hsid_b⟩⟩
      have hprice1 : b.price ≤ a.price := by
        rw [hb']
        exact reduceMinPrice_le _ tl hd a (hf ▸ hamem_pid)
      have hprice2 : a.price ≤ b.price := by
        rw [ha2]
        exact reduceMinPrice_le _ tl2 hd2 b (hf2 ▸ hbmem_conj)
      have hpq : a.price = b.price := le_antisymm hprice2 hprice1
      have hfindb : (sps.filter (fun sp => sp.productId == productId)).find?
          (fun x => decide (x.price ≤ b.price)) = some b := by
        rw [hf, hb']
        exact reduceMinPrice_find? ShopProduct.price tl hd
      have hfindb2 : ((sps.filter (fun sp => sp.productId == productId)).filter
          (fun sp => sp.shopId == shopId)).find?
            (fun x => decide (x.price ≤ b.price)) = some b :=
        find?_filter_of_find? _ b hfindb (by simpa using hsid_b)
      have hff : (sps.filter (fun sp => sp.productId == productId)).filter
          (fun sp => sp.shopId == shopId)
            = sps.filter
              (fun sp => sp.productId == productId && sp.shopId == shopId) := by
        rw [List.filter_filter]
        exact List.filter_congr (fun x _ => Bool.and_comm _ _)
      have hfinda : (sps.filter
          (fun sp => sp.productId == productId && sp.shopId == shopId)).find?
            (fun x => decide (x.price ≤ a.price)) = some a := by
        rw [hf2, ha2]
        exact reduceMinPrice_find? ShopProduct.price tl2 hd2
      rw [hpq] at hfinda
      rw [hff] at hfindb2
      exact Option.some.inj (hfinda.symm.trans hfindb2)
    · intro hab
      show (cur.shopId == (reduceMinPrice ShopProduct.price hd tl).shopId) = true
      rw [← hb', ← hab, hcur_sid]
      have hgoal : shopId = a.shopId := (beq_iff_eq.mp hap2).symm
      simpa using hgoal

/-- Witness for C1 on the demo data at shop s2, where the local cheapest
record is the global cheapest record. -/
theorem C1_isCheapest_iff_same_record_witness :
    demoComparisonAtS2.isCheapest = true := by
  have hsome : Brand.getPriceComparison "p1" "s2" demoBrandRecords demoShops
      = some demoComparisonAtS2 := by
    simp [Brand.getPriceComparison, Brand.getCheapestBrandAtShop,
      demoBrandRecords, demoShops, reduceMinPrice, jsNameOrUnknown,
      demoComparisonAtS2]
    norm_num
    decide
  exact (C1_isCheapest_iff_same_record.1 "p1" "s2" demoBrandRecords demoShops
    demoComparisonAtS2 ⟨"r2", "p1", "s2", "BrandB", 4⟩
    ⟨"r2", "p1", "s2", "BrandB", 4⟩ (by decide) hsome rfl rfl).mpr rfl

/-- The ranking comparator order implies the claim-level ordering: strictly
more products available, or equally many with at least as many cheapest
products. -/
theorem rankLe_decode {a b : Brand.ShopRanking} (h : Brand.rankLe a b) :
    b.productsAvailable < a.productsAvailable ∨
      (a.productsAvailable = b.productsAvailable ∧
        b.cheapestProducts ≤ a.cheapestProducts) := by
  simp only [Brand.rankLe, Brand.rankCompare] at h
  split at h <;> omega

/-- Claim C4: `getBestShopsForShoppingList` never returns a shop with zero
needed products available; its result is sorted non-increasing by
`productsAvailable` with ties ordered non-increasing by `cheapestProducts`;
in particular the first entry never has fewer products available than a
later entry. -/
theorem C4_ranking_sorted_and_positive :
    ∀ (neededProducts : List Product) (spbs : List ShopProductBrand)
      (shops : List Shop),
      (∀ x ∈ Brand.getBestShopsForShoppingList neededProducts spbs shops,
        0 < x.productsAvailable) ∧
      (Brand.getBestShopsForShoppingList neededProducts spbs shops).Pairwise
        (fun a b => b.productsAvailable < a.productsAvailable ∨
          (a.productsAvailable = b.productsAvailable ∧
            b.cheapestProducts ≤ a.cheapestProducts)) ∧
      (∀ hd tl, Brand.getBestShopsForShoppingList neededProducts spbs shops
          = hd :: tl → ∀ x ∈ tl,
            x.productsAvailable ≤ hd.productsAvailable) := by
  intro neededProducts spbs shops
  have hpos : ∀ x ∈ Brand.getBestShopsForShoppingList neededProducts spbs shops,
      0 < x.productsAvailable := by
    intro x hx
    unfold Brand.getBestShopsForShoppingList at hx
    rw [List.mem_insertionSort] at hx
    exact of_decide_eq_true (List.mem_filter.mp hx).2
  have hsorted : (Brand.getBestShopsForShoppingList neededProducts spbs
      shops).Pairwise
        (fun a b => b.productsAvailable < a.productsAvailable ∨
          (a.productsAvailable = b.productsAvailable ∧
            b.cheapestProducts ≤ a.cheapestProducts)) := by
    unfold Brand.getBestShopsForShoppingList
    exact (List.sorted_insertionSort Brand.rankLe _).imp rankLe_decode
  refine ⟨hpos, hsorted, ?_⟩
  intro hd tl hcons x hx
  rw [hcons] at hsorted
  rcases List.pairwise_cons.mp hsorted with ⟨hrel, -⟩
  rcases hrel x hx with h | h
  · omega
  · omega

/-- Witness for C4 on the demo data: s2 (cheapest for the one needed
product) is ranked before s1, whose availability does not exceed s2's. -/
theorem C4_ranking_sorted_and_positive_witness :
    demoRankingSecond.productsAvailable
      ≤ demoRankingFirst.productsAvailable := by
  have h1 : Brand.getCheapestBrandAtShop "p1" "s1" demoBrandRecords
      = some ⟨"r1", "p1", "s1", "BrandA", 5⟩ := rfl
  have h2 : Brand.getCheapestBrandAtShop "p1" "s2" demoBrandRecords
      = some ⟨"r2", "p1", "s2", "BrandB", 4⟩ := rfl
  have h3 : Brand.getCheapestOption "p1" demoBrandRecords
      [⟨"s1", "Aldi"⟩, ⟨"s2", "Lidl"⟩]
      = some ⟨⟨"s2", "Lidl"⟩, ⟨"r2", "p1", "s2", "BrandB", 4⟩, 4⟩ := rfl
  have hcons : Brand.getBestShopsForShoppingList demoProducts demoBrandRecords
      demoShops = [demoRankingFirst, demoRankingSecond] := by
    simp only [Brand.getBestShopsForShoppingList, demoProducts, demoShops,
      List.map_cons, List.map_nil, List.foldl_cons, List.foldl_nil]
    norm_num [h1, h2, h3, Brand.rankLe, Brand.rankCompare,
      demoRankingFirst, demoRankingSecond]
    decide
  exact (C4_ranking_sorted_and_positive demoProducts demoBrandRecords
    demoShops).2.2 demoRankingFirst [demoRankingSecond] hcons
    demoRankingSecond (by simp)

/-- Claim C6: the brand-variant `getAllPricesForProduct` returns per-shop
groups sorted non-decreasing by each group's cheapest price; each group is
non-empty, its `cheapestPrice` equals the minimum price among its brand
records, and its brand list is itself sorted non-decreasing by price. -/
theorem C6_allPrices_sorted_groups :
    ∀ (productId : String) (spbs : List ShopProductBrand) (shops : List Shop),
      (Brand.getAllPricesForProduct productId spbs shops).Pairwise
        (fun g1 g2 => g1.cheapestPrice ≤ g2.cheapestPrice) ∧
      (∀ g ∈ Brand.getAllPricesForProduct productId spbs shops,
        g.brands ≠ [] ∧
        (∀ b ∈ g.brands, g.cheapestPrice ≤ b.price) ∧
        (∃ b ∈ g.brands, g.cheapestPrice = b.price) ∧
        g.brands.Pairwise (fun b1 b2 => b1.price ≤ b2.price)) := by
  intro productId spbs shops
  constructor
  · unfold Brand.getAllPricesForProduct
    exact (List.sorted_insertionSort Brand.groupLe _).imp
      (fun h => sub_nonpos.mp h)
  · intro g hg
    unfold Brand.getAllPricesForProduct at hg
    rw [List.mem_insertionSort] at hg
    obtain ⟨sid, hsid, hfg⟩ := List.mem_filterMap.mp hg
    dsimp only at hfg
    cases hshop : shops.find? (fun s => s.id == sid) with
    | none => rw [hshop] at hfg; simp at hfg
    | some shop =>
      rw [hshop] at hfg
      dsimp only at hfg
      have hg' := (Option.some.inj hfg).symm
      have hsid_mem := jsSetDedup_subset _ _ hsid
      obtain ⟨r, hr_mem, hr_sid⟩ := List.mem_map.mp hsid_mem
      rcases List.mem_filter.mp hr_mem with ⟨hr_spbs, hr_pid⟩
      have hr_conj : r ∈ spbs.filter
          (fun spb => spb.productId == productId && spb.shopId == sid) :=
        List.mem_filter.mpr ⟨hr_spbs, by
          rw [Bool.and_eq_true]
          exact ⟨hr_pid, by simpa using hr_sid⟩⟩
      have hr_sorted : r ∈ (spbs.filter (fun spb =>
          spb.productId == productId && spb.shopId == sid)).insertionSort
            Brand.brandLe :=
        (List.mem_insertionSort _).mpr hr_conj
      have hsorted_brands := List.sorted_insertionSort Brand.brandLe
        (spbs.filter (fun spb =>
          spb.productId == productId && spb.shopId == sid))
      cases hbr : (spbs.filter (fun spb =>
          spb.productId == productId && spb.shopId == sid)).insertionSort
            Brand.brandLe with
      | nil => rw [hbr] at hr_sorted; simp at hr_sorted
      | cons b0 rest =>
        rw [hbr] at hg' hsorted_brands
        subst hg'
        refine ⟨by simp, ?_, ⟨b0, by simp, rfl⟩,
          hsorted_brands.imp (fun h => sub_nonpos.mp h)⟩
        intro b hb
        rcases List.mem_cons.mp hb with rfl | hb
        · exact le_refl _
        · exact sub_nonpos.mp (List.rel_of_sorted_cons hsorted_brands b hb)

/-- Witness for C6 on the demo data: the cheapest price of the first group
(Lidl) bounds its own brand record's price. -/
theorem C6_allPrices_sorted_groups_witness :
    demoGroupFirst.cheapestPrice
      ≤ (⟨"r2", "p1", "s2", "BrandB", 4⟩ : ShopProductBrand).price := by
  have hcons : Brand.getAllPricesForProduct "p1" demoBrandRecords demoShops
      = [demoGroupFirst, demoGroupSecond] := by
    simp [Brand.getAllPricesForProduct, demoBrandRecords, demoShops,
      jsSetDedup, jsSetDedupAux, Brand.brandLe, Brand.groupLe,
      demoGroupFirst, demoGroupSecond]
    norm_num
  exact ((C6_allPrices_sorted_groups "p1" demoBrandRecords demoShops).2
    demoGroupFirst (by rw [hcons]; simp)).2.1
    ⟨"r2", "p1", "s2", "BrandB", 4⟩ (by simp [demoGroupFirst])

/-- Inversion of a successful `Brand.getCheapestOption`: matching records
are non-empty, their first-minimum's shop resolves, and the result carries
that record, shop and price. -/
theorem brand_cheapestOption_inv {productId : String}
    {spbs : List ShopProductBrand} {shops : List Shop}
    {co : Brand.CheapestOption}
    (h : Brand.getCheapestOption productId spbs shops = some co) :
    ∃ hd tl sh,
      spbs.filter (fun spb => spb.productId == productId) = hd :: tl ∧
      shops.find? (fun s =>
        s.id == (reduceMinPrice ShopProductBrand.price hd tl).shopId)
          = some sh ∧
      co = ⟨sh, reduceMinPrice ShopProductBrand.price hd tl,
            (reduceMinPrice ShopProductBrand.price hd tl).price⟩ := by
  unfold Brand.getCheapestOption at h
  cases hf : spbs.filter (fun spb => spb.productId == productId) with
  | nil => rw [hf] at h; simp at h
  | cons hd tl =>
    rw [hf] at h
    dsimp only at h
    cases hs : shops.find? (fun s =>
        s.id == (reduceMinPrice ShopProductBrand.price hd tl).shopId) with
    | none => rw [hs] at h; simp at h
    | some sh =>
      rw [hs] at h
      exact ⟨hd, tl, sh, rfl, hs, (Option.some.inj h).symm⟩

/-- Claim C5: every entry of `getCheaperAlternatives` has strictly positive
savings — its current price (the cheapest price at the queried shop) is
strictly greater than the global cheapest price for that product, which is
the minimum of all matching records' prices — and the result is sorted
non-increasing by savings; no entry with current price equal to the global
cheapest is included.  Proved for the brand variant unconditionally; for
the simple variant under its documented data-model invariant that at most
one record exists per (productId, shopId) pair, which makes the `find`-ed
current record the shop's cheapest. -/
theorem C5_cheaper_alternatives_positive_sorted :
    (∀ (shopId : String) (spbs : List ShopProductBrand) (shops : List Shop)
        (products : List Product),
      (Brand.getCheaperAlternatives shopId spbs shops products).Pairwise
        (fun x y => y.savings ≤ x.savings) ∧
      (∀ e ∈ Brand.getCheaperAlternatives shopId spbs shops products,
        0 < e.savings ∧
        e.savings = e.currentPrice - e.cheapestPrice ∧
        e.cheapestPrice < e.currentPrice ∧
        Brand.getCheapestBrandAtShop e.product.id shopId spbs
          = some e.currentBrand ∧
        e.currentPrice = e.currentBrand.price ∧
        (∀ x ∈ spbs.filter (fun spb => spb.productId == e.product.id),
          e.cheapestPrice ≤ x.price) ∧
        (∃ x ∈ spbs.filter (fun spb => spb.productId == e.product.id),
          e.cheapestPrice = x.price))) ∧
    (∀ (shopId : String) (sps : List ShopProduct) (shops : List Shop)
        (products : List Product),
      (sps.map (fun sp => (sp.productId, sp.shopId))).Nodup →
      (Legacy.getCheaperAlternatives shopId sps shops products).Pairwise
        (fun x y => y.savings ≤ x.savings) ∧
      (∀ e ∈ Legacy.getCheaperAlternatives shopId sps shops products,
        0 < e.savings ∧
        e.savings = e.currentPrice - e.cheapestPrice ∧
        e.cheapestPrice < e.currentPrice ∧
        (∃ w, Legacy.cheapestAtShop e.product.id shopId sps = some w ∧
          e.currentPrice = w.price) ∧
        (∀ x ∈ sps.filter (fun sp => sp.productId == e.product.id),
          e.cheapestPrice ≤ x.price) ∧
        (∃ x ∈ sps.filter (fun sp => sp.productId == e.product.id),
          e.cheapestPrice = x.price))) := by
  constructor
  · intro shopId spbs shops products
    constructor
    · unfold Brand.getCheaperAlternatives
      exact (List.sorted_insertionSort Brand.altLe _).imp
        (fun h => sub_nonpos.mp h)
    · intro e he
      unfold Brand.getCheaperAlternatives at he
      rw [List.mem_insertionSort] at he
      obtain ⟨pid, hpid, hfe⟩ := List.mem_filterMap.mp he
      dsimp only at hfe
      cases ha : Brand.getCheapestBrandAtShop pid shopId spbs with
      | none => rw [ha] at hfe; simp at hfe
      | some a =>
        cases hco : Brand.getCheapestOption pid spbs shops with
        | none => rw [ha, hco] at hfe; simp at hfe
        | some co =>
          rw [ha, hco] at hfe
          dsimp only at hfe
          split at hfe
          · split at hfe
            · rename_i hne hsav
              cases hprod : products.find? (fun p => p.id == pid) with
              | none => rw [hprod] at hfe; simp at hfe
              | some product =>
                rw [hprod] at hfe
                have he' := (Option.some.inj hfe).symm
                have hEprod : e.product = product := by rw [he']
                have hEcb : e.currentBrand = a := by rw [he']
                have hEcp : e.currentPrice = a.price := by rw [he']
                have hEchp : e.cheapestPrice = co.price := by rw [he']
                have hEsav : e.savings = a.price - co.price := by rw [he']
                have hpid_eq : product.id = pid := by
                  simpa using List.find?_some hprod
                have hsav' : (0 : ℚ) < a.price - co.price := by
                  simpa using hsav
                obtain ⟨hd, tl, sh, hf, -, hco'⟩ := brand_cheapestOption_inv hco
                have hco_price : co.price
                    = (reduceMinPrice ShopProductBrand.price hd tl).price := by
                  rw [hco']
                refine ⟨?_, ?_, ?_, ?_, ?_, ?_, ?_⟩
                · rw [hEsav]; exact hsav'
                · rw [hEsav, hEcp, hEchp]
                · rw [hEchp, hEcp]; linarith
                · rw [hEprod, hEcb, hpid_eq]; exact ha
                · rw [hEcp, hEcb]
                · intro x hx
                  rw [hEprod, hpid_eq, hf] at hx
                  rw [hEchp, hco_price]
                  exact reduceMinPrice_le _ tl hd x hx
                · refine ⟨reduceMinPrice ShopProductBrand.price hd tl, ?_, ?_⟩
                  · rw [hEprod, hpid_eq, hf]
                    exact reduceMinPrice_mem _ tl hd
                  · rw [hEchp, hco_price]
            · simp at hfe
          · simp at hfe
  · intro shopId sps shops products hKeys
    constructor
    · unfold Legacy.getCheaperAlternatives
      exact (List.sorted_insertionSort Legacy.altLe _).imp
        (fun h => sub_nonpos.mp h)
    · intro e he
      unfold Legacy.getCheaperAlternatives at he
      rw [List.mem_insertionSort] at he
      obtain ⟨sp0, hsp0, hfe⟩ := List.mem_filterMap.mp he
      cases hcomp : Legacy.getPriceComparison sp0.productId shopId sps shops with
      | none => rw [hcomp] at hfe; simp at hfe
      | some comparison =>
        rw [hcomp] at hfe
        dsimp only at hfe
        split at hfe
        · rename_i hcond
          cases hprod : products.find? (fun p => p.id == sp0.productId) with
          | none => rw [hprod] at hfe; simp at hfe
          | some product =>
            cases hcs : shops.find?
                (fun s => s.id == comparison.cheapestShopId) with
            | none => rw [hprod, hcs] at hfe; simp at hfe
            | some cheapestShop =>
              rw [hprod, hcs] at hfe
              have he' := (Option.some.inj hfe).symm
              have hEprod : e.product = product := by rw [he']
              have hEcp : e.currentPrice = comparison.currentPrice := by rw [he']
              have hEchp : e.cheapestPrice = comparison.cheapestPrice := by
                rw [he']
              have hEsav : e.savings = comparison.savings := by rw [he']
              rcases (Bool.and_eq_true _ _).mp hcond with ⟨-, hsavb⟩
              have hsav : (0 : ℚ) < comparison.savings :=
                of_decide_eq_true hsavb
              have hpid_eq : product.id = sp0.productId := by
                simpa using List.find?_some hprod
              obtain ⟨cur, hd, tl, hcur, hf, hcf⟩ := legacy_comparison_inv hcomp
              have hCcp : comparison.currentPrice = cur.price := by rw [hcf]
              have hCchp : comparison.cheapestPrice
                  = (reduceMinPrice ShopProduct.price hd tl).price := by
                rw [hcf]
              have hCsav : comparison.savings
                  = cur.price - (reduceMinPrice ShopProduct.price hd tl).price := by
                rw [hcf]
              have hpredc := List.find?_some hcur
              rcases (Bool.and_eq_true _ _).mp hpredc with ⟨hc1, hc2⟩
              have hcurmem_conj : cur ∈ sps.filter (fun sp =>
                  sp.productId == sp0.productId && sp.shopId == shopId) :=
                List.mem_filter.mpr ⟨List.mem_of_find?_eq_some hcur, hpredc⟩
              obtain ⟨hd2, tl2, hf2⟩ :=
                List.exists_cons_of_ne_nil (List.ne_nil_of_mem hcurmem_conj)
              have hw_mem : reduceMinPrice ShopProduct.price hd2 tl2
                  ∈ sps.filter (fun sp =>
                    sp.productId == sp0.productId && sp.shopId == shopId) := by
                rw [hf2]; exact reduceMinPrice_mem _ tl2 hd2
              rcases List.mem_filter.mp hw_mem with ⟨hw_sps, hw_pred⟩
              rcases (Bool.and_eq_true _ _).mp hw_pred with ⟨hw1, hw2⟩
              have hcur_eq_w : cur = reduceMinPrice ShopProduct.price hd2 tl2 := by
                apply List.inj_on_of_nodup_map hKeys
                  (List.mem_of_find?_eq_some hcur) hw_sps
                have e1 : cur.productId = sp0.productId := by simpa using hc1
                have e2 : cur.shopId = shopId := by simpa using hc2
                have e3 : (reduceMinPrice ShopProduct.price hd2 tl2).productId
                    = sp0.productId := by simpa using hw1
                have e4 : (reduceMinPrice ShopProduct.price hd2 tl2).shopId
                    = shopId := by simpa using hw2
                rw [e1, e2, e3, e4]
              refine ⟨?_, ?_, ?_, ?_, ?_, ?_⟩
              · rw [hEsav]; exact hsav
              · rw [hEsav, hEcp, hEchp, hCsav, hCcp, hCchp]
              · rw [hEchp, hEcp, hCcp, hCchp]
                rw [hCsav] at hsav
                linarith
              · refine ⟨reduceMinPrice ShopProduct.price hd2 tl2, ?_, ?_⟩
                · rw [hEprod, hpid_eq]
                  unfold Legacy.cheapestAtShop
                  rw [hf2]
                · rw [hEcp, hCcp, hcur_eq_w]
              · intro x hx
                rw [hEprod, hpid_eq, hf] at hx
                rw [hEchp, hCchp]
                exact reduceMinPrice_le _ tl hd x hx
              · refine ⟨reduceMinPrice ShopProduct.price hd tl, ?_, ?_⟩
                · rw [hEprod, hpid_eq, hf]
                  exact reduceMinPrice_mem _ tl hd
                · rw [hEchp, hCchp]
        · simp at hfe

/-- Witness for C5 on the demo data: the single alternative produced at s1
has strictly positive savings. -/
theorem C5_cheaper_alternatives_positive_sorted_witness :
    0 < demoAlternative.savings := by
  have h1 : Brand.getCheapestBrandAtShop "p1" "s1"
      [⟨"r1", "p1", "s1", "BrandA", 5⟩, ⟨"r2", "p1", "s2", "BrandB", 4⟩]
      = some ⟨"r1", "p1", "s1", "BrandA", 5⟩ := rfl
  have h3 : Brand.getCheapestOption "p1"
      [⟨"r1", "p1", "s1", "BrandA", 5⟩, ⟨"r2", "p1", "s2", "BrandB", 4⟩]
      [⟨"s1", "Aldi"⟩, ⟨"s2", "Lidl"⟩]
      = some ⟨⟨"s2", "Lidl"⟩, ⟨"r2", "p1", "s2", "BrandB", 4⟩, 4⟩ := rfl
  have hcons : Brand.getCheaperAlternatives "s1" demoBrandRecords demoShops
      demoProducts = [demoAlternative] := by
    simp only [Brand.getCheaperAlternatives, demoBrandRecords, demoShops,
      demoProducts, jsSetDedup, jsSetDedupAux]
    simp [h1, h3, demoAlternative, reduceMinPrice,
      Brand.getCheapestBrandAtShop, Brand.getCheapestOption]
    norm_num
  exact ((C5_cheaper_alternatives_positive_sorted.1 "s1" demoBrandRecords
    demoShops demoProducts).2 demoAlternative (by rw [hcons]; simp)).1

end ShopWell
